import Mathlib

/-!
Verification of the color-palette-generator repository.

The development shallowly embeds the pure computations of
`src/components/chatbot.tsx` and `src/app/api/chat/route.ts`:

* `stripMainColorsSection`, `getContrastYIQ`, `parseColorInfo` and the
  client stream-accumulation loop of `chatbot.tsx`;
* the server-sent-event emission loop, the request guards and the
  palette rendering of `route.ts`.

JavaScript strings are modelled as `String`/`List Char`; the regular
expression of `parseColorInfo` is embedded as a deterministic scanner
that is equivalent to the JS backtracking semantics on this pattern
(the only backtracking interaction, `\s*([^,]+)` before a comma, is
resolved by the fact that the parsed name is trimmed afterwards, so
capturing the whole comma-free run and trimming gives the same result).
-/

/-- The character class of the JS `\s` escape and of `String.prototype.trim`
(ASCII whitespace plus NBSP and BOM; the rarer Unicode space separators do
not occur in any input considered here). -/
def jsIsSpace (c : Char) : Bool :=
  c == ' ' || c == '\t' || c == '\n' || c == '\r' || c == '\x0b' ||
  c == '\x0c' || c.val == 0xa0 || c.val == 0xfeff

/-- JS `String.prototype.trim` on a character list. -/
def jsTrim (l : List Char) : List Char :=
  List.rdropWhile jsIsSpace (List.dropWhile jsIsSpace l)

/-- JS `String.prototype.trim`. -/
def jsTrimS (s : String) : String := String.mk (jsTrim s.data)

/-- JS `String.prototype.indexOf` for a list-of-characters needle:
index of the first occurrence, `none` when absent. -/
def firstOcc (pat : List Char) : List Char → Option Nat
  | [] => if pat.isPrefixOf ([] : List Char) then some 0 else none
  | c :: t =>
    if pat.isPrefixOf (c :: t) then some 0
    else (firstOcc pat t).map (· + 1)

/-- `pat` occurs as a contiguous substring of `l`. -/
def Occurs (pat l : List Char) : Prop := ∃ s t, l = s ++ pat ++ t

/-- The literal searched for by `stripMainColorsSection` (chatbot.tsx line 59). -/
def mainColorsLabel : List Char := ("Main Colors:").data

/-- chatbot.tsx lines 58-61: cut the text at the first occurrence of
the literal `Main Colors:` (if any) and trim the result. -/
def stripMainColorsSection (text : String) : String :=
  match firstOcc mainColorsLabel text.data with
  | some i => String.mk (jsTrim (text.data.take i))
  | none => String.mk (jsTrim text.data)

/-- chatbot.tsx line 48: `hex.replace("#", "")` – JS `replace` with a string
pattern replaces only the first occurrence. -/
def removeFirstHash : List Char → List Char
  | [] => []
  | c :: t => if c == '#' then t else c :: removeFirstHash t

/-- The character class `[0-9A-Fa-f]`. -/
def isHexDigitChar (c : Char) : Bool :=
  c.isDigit || ('a' ≤ c && c ≤ 'f') || ('A' ≤ c && c ≤ 'F')

/-- Value of a single hexadecimal digit. -/
def hexDigitVal (c : Char) : Nat :=
  if c.isDigit then c.toNat - 48
  else if 'a' ≤ c && c ≤ 'f' then c.toNat - 87
  else if 'A' ≤ c && c ≤ 'F' then c.toNat - 55
  else 0

/-- Value of a string of hexadecimal digits (most significant first). -/
def hexValue (l : List Char) : Nat := l.foldl (fun a c => a * 16 + hexDigitVal c) 0

/-- JS `parseInt(s, 16)`: parse the maximal leading run of hex digits,
`none` (NaN) when there is none.  (The JS corner cases – leading
whitespace, sign, `0x` prefix – cannot arise from the two-character
substrings `getContrastYIQ` feeds in on its intended inputs.) -/
def parseIntHex (l : List Char) : Option Nat :=
  let ds := l.takeWhile isHexDigitChar
  if ds.isEmpty then none else some (hexValue ds)

/-- chatbot.tsx line 49: `if (c.length === 3) c = c[0]+c[0]+c[1]+c[1]+c[2]+c[2]`. -/
def expandShort : List Char → List Char
  | [x, y, z] => [x, x, y, y, z, z]
  | other => other

/-- chatbot.tsx lines 47-55: YIQ contrast color.  A `none` (NaN) component
makes the comparison `yiq >= 128` false, giving `#fff`.  The float
division `/ 1000` followed by `>= 128` is exact and is modelled by the
integer comparison `128 * 1000 <= ...`. -/
def getContrastYIQ (hexStr : String) : String :=
  let c1 := expandShort (removeFirstHash hexStr.data)
  match parseIntHex (c1.take 2), parseIntHex ((c1.drop 2).take 2),
      parseIntHex ((c1.drop 4).take 2) with
  | some r, some g, some b =>
    if 128 * 1000 ≤ r * 299 + g * 587 + b * 114 then ("#222") else ("#fff")
  | _, _, _ => ("#fff")

/-- The decision of the claim for `getContrastYIQ`: `'#222'` iff
`(299*r + 587*g + 114*b) / 1000` is at least `128`. -/
def yiqThreshold (r g b : Nat) : String :=
  if 128 ≤ (r * 299 + g * 587 + b * 114) / 1000 then ("#222") else ("#fff")

/-- chatbot.tsx lines 40-44: a parsed color entry. -/
structure ColorInfo where
  name : String
  hex : String
  rgb : String
deriving DecidableEq

/-- Match a literal sequence of characters at the head of the input and
return the rest, `none` when the literal is not there. -/
def expectL : List Char → List Char → Option (List Char)
  | [], l => some l
  | _ :: _, [] => none
  | c :: cs, d :: ds => if c = d then expectL cs ds else none

/-- Match exactly `n` characters satisfying `p` (the `{6}` quantifier). -/
def takeExactly : Nat → (Char → Bool) → List Char → Option (List Char × List Char)
  | 0, _, l => some ([], l)
  | _ + 1, _, [] => none
  | n + 1, p, c :: t =>
    if p c then (takeExactly n p t).map (fun pr => (c :: pr.1, pr.2)) else none

/-- The regex piece `(\d+)\.` – a nonempty digit run followed by a literal
dot; the digits are captured but never used by `parseColorInfo`. -/
def parseNum (l : List Char) : Option (List Char) :=
  if (l.takeWhile Char.isDigit).isEmpty then none
  else expectL ['.'] (l.dropWhile Char.isDigit)

/-- The regex piece `\s*Name:\s*([^,]+),`.  The interaction of the greedy
`\s*` with `([^,]+)` is resolved by returning the whole comma-free run:
since `parseColorInfo` trims the capture, this yields the same `ColorInfo`
as the JS backtracking semantics (the capture differs from the run only by
leading whitespace, which trimming removes, and the run is matchable iff it
is nonempty). -/
def parseName (l : List Char) : Option (List Char × List Char) :=
  (expectL (("Name:").data) (l.dropWhile jsIsSpace)).bind fun r =>
    if (r.takeWhile (fun c => c != ',')).isEmpty then none
    else
      (expectL [','] (r.dropWhile (fun c => c != ','))).map fun r2 =>
        (r.takeWhile (fun c => c != ','), r2)

/-- The regex piece `\s*Hex:\s*(#[0-9A-Fa-f]{6})` – returns the six hex
digits after the `#`. -/
def parseHexPart (l : List Char) : Option (List Char × List Char) :=
  (expectL (("Hex:").data) (l.dropWhile jsIsSpace)).bind fun r =>
    (expectL ['#'] (r.dropWhile jsIsSpace)).bind fun r2 =>
      takeExactly 6 isHexDigitChar r2

/-- The regex piece `(\d+)` inside the RGB triple. -/
def parseComp (l : List Char) : Option (List Char × List Char) :=
  if (l.takeWhile Char.isDigit).isEmpty then none
  else some (l.takeWhile Char.isDigit, l.dropWhile Char.isDigit)

/-- The regex piece `,\s*RGB:\s*\((\d+),\s*(\d+),\s*(\d+)\)`. -/
def parseRgbPart (l : List Char) :
    Option ((List Char × List Char × List Char) × List Char) :=
  (expectL [','] l).bind fun r0 =>
    (expectL (("RGB:").data) (r0.dropWhile jsIsSpace)).bind fun r1 =>
      (expectL ['('] (r1.dropWhile jsIsSpace)).bind fun r2 =>
        (parseComp r2).bind fun xp =>
          (expectL [','] xp.2).bind fun r3 =>
            (parseComp (r3.dropWhile jsIsSpace)).bind fun yp =>
              (expectL [','] yp.2).bind fun r4 =>
                (parseComp (r4.dropWhile jsIsSpace)).bind fun zp =>
                  (expectL [')'] zp.2).map fun r5 => ((xp.1, yp.1, zp.1), r5)

/-- One attempt of the regex
`(\d+)\.\s*Name:\s*([^,]+),\s*Hex:\s*(#[0-9A-Fa-f]{6}),\s*RGB:\s*\((\d+),\s*(\d+),\s*(\d+)\)`
of chatbot.tsx line 526 at the current position, building the `ColorInfo`
pushed by lines 531-535 (`name` is the trimmed second capture, `hex` the
third capture, `rgb` rebuilt as `(${m[4]}, ${m[5]}, ${m[6]})`). -/
def matchAt (l : List Char) : Option (ColorInfo × List Char) :=
  (parseNum l).bind fun r1 =>
    (parseName r1).bind fun up =>
      (parseHexPart up.2).bind fun hp =>
        (parseRgbPart hp.2).map fun rp =>
          (⟨String.mk (jsTrim up.1), String.mk ('#' :: hp.1),
              String.mk ('(' :: (rp.1.1 ++ (',' :: ' ' ::
                (rp.1.2.1 ++ (',' :: ' ' :: (rp.1.2.2 ++ ([')'])))))))⟩,
            rp.2)

/-- The `while ((match = colorRegex.exec(text)) !== null)` loop of
chatbot.tsx lines 530-536: find the leftmost match from the current
position (JS `exec` with the `g` flag scans forward one character at a
time), emit it, and continue after its end.  Every iteration consumes at
least one character, so the fuel `text.length` supplied by
`parseColorInfo` never runs out. -/
def scanGo : Nat → List Char → List ColorInfo
  | 0, _ => []
  | fuel + 1, l =>
    match matchAt l with
    | some pr => pr.1 :: scanGo fuel pr.2
    | none =>
      match l with
      | [] => []
      | _ :: t => scanGo fuel t

/-- chatbot.tsx lines 523-539 (`parseColorInfo`); the TS function wraps the
list in `{ colors }`, modelled as the list itself. -/
def parseColorInfo (text : String) : List ColorInfo :=
  scanGo text.data.length text.data

/-- The invariant claimed for hex fields: `#` followed by exactly six
hexadecimal digits. -/
def validHexB (s : String) : Bool :=
  match s.data with
  | c :: r => c == '#' && r.length == 6 && r.all isHexDigitChar
  | _ => false

/-- The shape every produced rgb field has: `(a, b, c)` with `a`, `b`, `c`
nonempty digit runs. -/
def validRgbShapeB (s : String) : Bool :=
  (((expectL ['('] s.data).bind fun r =>
    (parseComp r).bind fun xp =>
      (expectL [',', ' '] xp.2).bind fun yr =>
        (parseComp yr).bind fun yp =>
          (expectL [',', ' '] yp.2).bind fun zr =>
            (parseComp zr).bind fun zp =>
              (expectL [')'] zp.2).map fun r2 => r2.isEmpty).getD false)

/-- Decimal value of a digit run. -/
def decValue (l : List Char) : Nat := l.foldl (fun a c => a * 10 + (c.toNat - 48)) 0

/-- The maximal digit runs of a character list, as numbers (`cur` is the
reversed run currently being read). -/
def digitRunsAux : List Char → List Char → List Nat
  | cur, [] => if cur.isEmpty then [] else [decValue cur.reverse]
  | cur, c :: t =>
    if c.isDigit then digitRunsAux (c :: cur) t
    else if cur.isEmpty then digitRunsAux [] t
    else decValue cur.reverse :: digitRunsAux [] t

/-- The numeric components of an rgb string such as `(12, 34, 56)`. -/
def rgbComponents (s : String) : List Nat := digitRunsAux [] s.data

/-- Decimal rendering of a natural number (the JS template `${index + 1}`);
the fuel `n + 1` bounds the number of digits. -/
def natToCharsAux : Nat → Nat → List Char → List Char
  | 0, _, acc => acc
  | fuel + 1, n, acc =>
    if n < 10 then Nat.digitChar n :: acc
    else natToCharsAux fuel (n / 10) (Nat.digitChar (n % 10) :: acc)

/-- Decimal rendering of a natural number. -/
def natToChars (n : Nat) : List Char := natToCharsAux (n + 1) n []

/-- route.ts line 197: the line
`${index + 1}. Name: ${color.name}, Hex: ${color.hex}, RGB: ${color.rgb}`
for 1-based index `k`. -/
def lineChars (k : Nat) (c : ColorInfo) : List Char :=
  natToChars k ++ ((". Name: ").data ++ (c.name.data ++ ((", Hex: ").data ++
    (c.hex.data ++ ((", RGB: ").data ++ c.rgb.data)))))

/-- route.ts lines 196-198: the numbered lines joined by `'\n'`,
starting at index `k`. -/
def renderFrom (k : Nat) : List ColorInfo → List Char
  | [] => []
  | [c] => lineChars k c
  | c :: rest => lineChars k c ++ ('\n' :: renderFrom (k + 1) rest)

/-- route.ts lines 196-198: `palette.map((color, index) => ...).join('\n')`
with 1-based numbering. -/
def renderPaletteLines (colors : List ColorInfo) : String :=
  String.mk (renderFrom 1 colors)

/-- A name the fixed format round-trips: nonempty, trim-fixed, comma-free. -/
def WellFormedName (s : String) : Prop :=
  s ≠ "" ∧ jsTrimS s = s ∧ ∀ c ∈ s.data, c ≠ ','

/-- A hex field of the prescribed `#RRGGBB` shape. -/
def WellFormedHex (s : String) : Prop :=
  ∃ h, s.data = '#' :: h ∧ h.length = 6 ∧ ∀ c ∈ h, isHexDigitChar c = true

/-- An rgb field of the prescribed `(r, g, b)` shape. -/
def WellFormedRgb (s : String) : Prop :=
  ∃ x y z : List Char, x ≠ [] ∧ y ≠ [] ∧ z ≠ [] ∧
    (∀ c ∈ x, Char.isDigit c = true) ∧ (∀ c ∈ y, Char.isDigit c = true) ∧
    (∀ c ∈ z, Char.isDigit c = true) ∧
    s.data = '(' :: (x ++ (',' :: ' ' :: (y ++ (',' :: ' ' :: (z ++ ([')']))))))

/-- A color entry in the prescribed rendering format. -/
def WellFormedColor (c : ColorInfo) : Prop :=
  WellFormedName c.name ∧ WellFormedHex c.hex ∧ WellFormedRgb c.rgb

/-- One JSON string-escape step of `JSON.stringify` (ECMA-404/ECMA-262):
quote, backslash and control characters are escaped, everything else is
copied verbatim. -/
def jsonEscapeChar (c : Char) : List Char :=
  if c = '"' then ['\\', '"']
  else if c = '\\' then ['\\', '\\']
  else if c = '\n' then ['\\', 'n']
  else if c = '\r' then ['\\', 'r']
  else if c = '\t' then ['\\', 't']
  else if c = '\x08' then ['\\', 'b']
  else if c = '\x0c' then ['\\', 'f']
  else if c.val < 32 then
    ['\\', 'u', '0', '0', Nat.digitChar (c.toNat / 16), Nat.digitChar (c.toNat % 16)]
  else [c]

/-- `JSON.stringify` of a string value. -/
def jsonQuote (s : String) : String :=
  String.mk ('"' :: ((s.data.map jsonEscapeChar).flatten ++ (['"'])))

/-- `JSON.stringify({ text })` – route.ts lines 223 and 241. -/
def jsonTextObj (t : String) : String :=
  ("\x7b\"text\":") ++ jsonQuote t ++ ("\x7d")

/-- One emitted server-sent-event line:
`data: ${JSON.stringify({ text })}\n\n` (route.ts lines 223 and 241). -/
def sseLine (t : String) : String := ("data: ") ++ jsonTextObj t ++ ("\n\n")

/-- What the endpoint writes to the response stream: a data line per model
chunk, then the writer is closed. -/
inductive StreamEvent where
  | dataEvent (line : String)
  | closeEvent
deriving DecidableEq

/-- route.ts lines 217-249: `for await (chunk of result.stream) write(...)`
followed by `writer.close()`. -/
def serverEvents : List String → List StreamEvent
  | [] => [StreamEvent.closeEvent]
  | t :: rest => StreamEvent.dataEvent (sseLine t) :: serverEvents rest

/-- The client-side state touched while consuming the SSE stream after an
image upload: `accumulatedText`, the `colorPalette` state, and the content
of the `${messageId}-analysis` assistant message (chatbot.tsx lines
185-283). -/
structure ClientState where
  acc : String
  palette : List ColorInfo
  analysisMsg : Option String
deriving DecidableEq

/-- The initial client state: empty accumulator, no palette, no message. -/
def clientInit : ClientState := ⟨"", [], none⟩

/-- Processing of one parsed `data: ` line (chatbot.tsx lines 215-283):
nothing happens unless `data.text` is truthy (a nonempty string); otherwise
the text is appended, the palette replaced when the parse is nonempty, and
the analysis message set to the stripped accumulated text. -/
def clientStep (st : ClientState) (item : Option String) : ClientState :=
  match item with
  | none => st
  | some t =>
    if t = "" then st
    else
      ⟨st.acc ++ t,
        (if 0 < (parseColorInfo (st.acc ++ t)).length then
          parseColorInfo (st.acc ++ t) else st.palette),
        some (stripMainColorsSection (st.acc ++ t))⟩

/-- The client stream loop over the parsed `data: ` lines, in arrival
order. -/
def clientRun (items : List (Option String)) : ClientState :=
  items.foldl clientStep clientInit

/-- Concatenation, in arrival order, of the `text` fields present in the
parsed lines. -/
def concatTexts : List (Option String) → String
  | [] => ""
  | none :: rest => concatTexts rest
  | some t :: rest => t ++ concatTexts rest

/-- An uploaded image file, identified by name. -/
structure FileRef where
  fileName : String
deriving DecidableEq

/-- The request body `handleSubmit` sends to `/api/chat`: multipart form
data when an image is available, JSON otherwise (chatbot.tsx lines 156-172
and 347-357). -/
inductive ChatRequestBody where
  | formDataReq (image : FileRef) (mode : String) (question : Option String)
      (currentPalette : Option String)
  | jsonReq (question : String) (mode : String)
deriving DecidableEq

/-- `JSON.stringify` of one palette entry (field order as pushed by
`parseColorInfo`: name, hex, rgb). -/
def colorJson (c : ColorInfo) : String :=
  ("\x7b\"name\":") ++ jsonQuote c.name ++ (",\"hex\":") ++ jsonQuote c.hex ++
    (",\"rgb\":") ++ jsonQuote c.rgb ++ ("\x7d")

/-- `JSON.stringify(colorPalette)` (chatbot.tsx line 166). -/
def paletteJSON (colors : List ColorInfo) : String :=
  ("[") ++ String.intercalate (",") (colors.map colorJson) ++ ("]")

/-- chatbot.tsx lines 113-172 and 345-357: which request one submission
sends.  `none` models the early `return` of line 114 (no request at all);
`imageToUse` is `selectedImage || lastUploadedImage?.file` (line 154). -/
def buildRequest (input : String) (selectedImage : Option FileRef)
    (lastUploadedImage : Option FileRef) (colorPalette : List ColorInfo) :
    Option ChatRequestBody :=
  if jsTrimS input = ("") ∧ selectedImage = none then none
  else
    match selectedImage.orElse (fun _ => lastUploadedImage) with
    | some img =>
      some (ChatRequestBody.formDataReq img
        (if selectedImage.isSome then ("full") else ("followup"))
        (if jsTrimS input ≠ ("") then some (jsTrimS input) else none)
        (if selectedImage = none ∧ 0 < colorPalette.length then
          some (paletteJSON colorPalette) else none))
    | none => some (ChatRequestBody.jsonReq (jsTrimS input) ("text-only"))

/-- The server environment: `process.env.GOOGLE_API_KEY`. -/
structure ServerEnv where
  googleApiKey : Option String
deriving DecidableEq

/-- route.ts line 129: `!process.env.GOOGLE_API_KEY` – true when the
variable is unset or the empty string (JS falsiness). -/
def keyMissing (e : ServerEnv) : Bool :=
  match e.googleApiKey with
  | none => true
  | some s => s == ("")

/-- The fields of an incoming POST request the route reads. -/
structure IncomingRequest where
  contentType : Option String
  formImage : Option FileRef
  formMode : Option String
  formQuestion : Option String
  formPalette : Option String
  jsonQuestion : Option String
  jsonMode : Option String
deriving DecidableEq

/-- JS `String.prototype.includes`. -/
def containsSubstr (s pat : String) : Bool :=
  (firstOcc pat.data s.data).isSome

/-- route.ts lines 138-154: extraction of `imageFile`, `mode`, `question`
and `currentPalette` according to the content type (defaults `'full'`,
`''`, `''` when neither branch matches). -/
def extractFields (req : IncomingRequest) :
    Option FileRef × Option String × Option String × Option String :=
  let ct := req.contentType.getD ("")
  if containsSubstr ct ("multipart/form-data") then
    (req.formImage, req.formMode, req.formQuestion, req.formPalette)
  else if containsSubstr ct ("application/json") then
    (none, req.jsonMode, req.jsonQuestion, none)
  else (none, some ("full"), some (""), some (""))

/-- What the route returns: an early JSON error response, or the streaming
response (in which case the model is contacted). -/
inductive RouteOutcome where
  | errorResponse (status : Nat) (errorMessage : String)
  | streamResponse (mode : Option String) (hasImage : Bool)
deriving DecidableEq

/-- route.ts lines 127-257: the guard structure of `POST` – the API-key
check (lines 129-136), then the image check (lines 156-161), then the
streaming response (lines 251-257). -/
def POSTdecision (env : ServerEnv) (req : IncomingRequest) : RouteOutcome :=
  if keyMissing env then
    RouteOutcome.errorResponse 500
      ("Server configuration error: GOOGLE_API_KEY is not configured")
  else
    if (extractFields req).1 = none ∧ (extractFields req).2.1 ≠ some ("text-only") then
      RouteOutcome.errorResponse 400 ("No image file provided")
    else
      RouteOutcome.streamResponse (extractFields req).2.1 (extractFields req).1.isSome

-- ### Helper lemmas about prefixes, suffixes and trimming

lemma take_pref (n : Nat) (l : List Char) : l.take n <+: l := by
  exact List.take_prefix n l

lemma rdropWhile_pref (p : Char → Bool) (l : List Char) :
    List.rdropWhile p l <+: l := by
  exact List.rdropWhile_prefix p l

lemma pref_append (l₁ l₂ : List Char) : l₁ <+: l₁ ++ l₂ := by
  exact List.prefix_append l₁ l₂

lemma isPrefixOf_iff_pref (l₁ l₂ : List Char) :
    l₁.isPrefixOf l₂ = true ↔ l₁ <+: l₂ := by
  exact List.isPrefixOf_iff_prefix

lemma jsTrim_isInfix (l : List Char) : jsTrim l <:+: l := by
  have h1 : jsTrim l <+: List.dropWhile jsIsSpace l := rdropWhile_pref _ _
  have h2 : List.dropWhile jsIsSpace l <:+ l := List.dropWhile_suffix _
  exact h1.isInfix.trans h2.isInfix

lemma firstOcc_some_pref {pat l : List Char} {i : Nat}
    (h : firstOcc pat l = some i) : pat <+: l.drop i := by
  induction l generalizing i with
  | nil =>
    simp only [firstOcc] at h
    split at h
    · rename_i hp
      obtain rfl : i = 0 := by simpa using h.symm
      simpa using (isPrefixOf_iff_pref _ _).mp hp
    · simp at h
  | cons c t ih =>
    simp only [firstOcc] at h
    split at h
    · rename_i hp
      obtain rfl : i = 0 := by simpa using h.symm
      simpa using (isPrefixOf_iff_pref _ _).mp hp
    · simp only [Option.map_eq_some'] at h
      obtain ⟨j, hj, rfl⟩ := h
      simpa using ih hj

lemma firstOcc_min {pat l : List Char} {i : Nat}
    (h : firstOcc pat l = some i) : ∀ j, j < i → ¬ pat <+: l.drop j := by
  induction l generalizing i with
  | nil =>
    intro j hj
    simp only [firstOcc] at h
    split at h
    · obtain rfl : i = 0 := by simpa using h.symm
      omega
    · simp at h
  | cons c t ih =>
    intro j hj
    simp only [firstOcc] at h
    split at h
    · obtain rfl : i = 0 := by simpa using h.symm
      omega
    · rename_i hp
      simp only [Option.map_eq_some'] at h
      obtain ⟨i', hi', rfl⟩ := h
      cases j with
      | zero =>
        intro hcon
        exact hp ((isPrefixOf_iff_pref _ _).mpr (by simpa using hcon))
      | succ j' =>
        have := ih hi' j' (by omega)
        simpa using this

lemma firstOcc_none {pat l : List Char}
    (h : firstOcc pat l = none) : ∀ j, ¬ pat <+: l.drop j := by
  induction l with
  | nil =>
    intro j hcon
    simp only [firstOcc] at h
    split at h
    · simp at h
    · rename_i hp
      exact hp ((isPrefixOf_iff_pref _ _).mpr (by simpa using hcon))
  | cons c t ih =>
    intro j hcon
    simp only [firstOcc] at h
    split at h
    · simp at h
    · rename_i hp
      simp only [Option.map_eq_none'] at h
      cases j with
      | zero => exact hp ((isPrefixOf_iff_pref _ _).mpr (by simpa using hcon))
      | succ j' => exact ih h j' (by simpa using hcon)

lemma occurs_iff (pat l : List Char) :
    Occurs pat l ↔ ∃ i, pat <+: l.drop i := by
  constructor
  · rintro ⟨s, t, rfl⟩
    refine ⟨s.length, ?_⟩
    rw [List.append_assoc, List.drop_left]
    exact pref_append _ _
  · rintro ⟨i, u, hu⟩
    refine ⟨l.take i, u, ?_⟩
    rw [List.append_assoc, hu, List.take_append_drop]

lemma occurs_of_infix {pat m l : List Char} (hm : m <:+: l)
    (h : Occurs pat m) : Occurs pat l := by
  obtain ⟨s, t, hst⟩ := hm
  obtain ⟨u, v, rfl⟩ := h
  exact ⟨s ++ u, v ++ t, by rw [← hst]; simp⟩

lemma occurs_of_firstOcc_some {pat l : List Char} {i : Nat}
    (h : firstOcc pat l = some i) : Occurs pat l :=
  (occurs_iff pat l).mpr ⟨i, firstOcc_some_pref h⟩

lemma firstOcc_eq_none_of_not_occurs {pat l : List Char}
    (h : ¬ Occurs pat l) : firstOcc pat l = none := by
  cases hfo : firstOcc pat l with
  | none => rfl
  | some i => exact absurd (occurs_of_firstOcc_some hfo) h

lemma not_occurs_take {pat l : List Char} {i : Nat}
    (h : firstOcc pat l = some i) (hne : pat ≠ []) :
    ¬ Occurs pat (l.take i) := by
  intro hocc
  obtain ⟨j, hj⟩ := (occurs_iff _ _).mp hocc
  by_cases hji : j < i
  · have hj' : pat <+: l.drop j := by
      rw [List.drop_take] at hj
      exact hj.trans (take_pref _ _)
    exact firstOcc_min h j hji hj'
  · have hlen : (l.take i).length ≤ j := by
      have := List.length_take_le i l
      omega
    rw [List.drop_eq_nil_of_le hlen] at hj
    exact hne (List.prefix_nil.mp hj)

lemma dropWhile_of_trim_fix {p : Char → Bool} {l : List Char}
    (h : List.rdropWhile p (List.dropWhile p l) = l) :
    List.dropWhile p l = l ∧ List.rdropWhile p l = l := by
  have h1 : (List.dropWhile p l).length ≤ l.length :=
    (List.dropWhile_suffix p).length_le
  have h2 : (List.rdropWhile p (List.dropWhile p l)).length ≤
      (List.dropWhile p l).length :=
    (rdropWhile_pref p _).length_le
  have hlen : (List.dropWhile p l).length = l.length := by
    rw [h] at h2; omega
  have hdw : List.dropWhile p l = l :=
    (List.dropWhile_suffix p).eq_of_length hlen
  refine ⟨hdw, ?_⟩
  rw [hdw] at h
  exact h

lemma dropWhile_rdropWhile {p : Char → Bool} {m : List Char}
    (h : List.dropWhile p m = m) :
    List.dropWhile p (List.rdropWhile p m) = List.rdropWhile p m := by
  cases hr : List.rdropWhile p m with
  | nil => simp
  | cons a t =>
    have hpref : a :: t <+: m := by rw [← hr]; exact rdropWhile_pref p m
    obtain ⟨u, hu⟩ := hpref
    have hpa : p a = false := by
      by_contra hc
      have hpa' : p a = true := by
        cases hpa2 : p a
        · exact absurd hpa2 hc
        · rfl
      rw [← hu, List.cons_append, List.dropWhile_cons_of_pos hpa'] at h
      have hl1 : (List.dropWhile p (t ++ u)).length ≤ (t ++ u).length :=
        (List.dropWhile_suffix p).length_le
      rw [h] at hl1
      simp at hl1
    exact List.dropWhile_cons_of_neg (by simp [hpa])

lemma jsTrim_idem (l : List Char) : jsTrim (jsTrim l) = jsTrim l := by
  unfold jsTrim
  rw [dropWhile_rdropWhile (List.dropWhile_idempotent _ _),
    List.rdropWhile_idempotent]

lemma strip_data (s : String) :
    ∃ p, p <+: s.data ∧ stripMainColorsSection s = String.mk (jsTrim p) := by
  unfold stripMainColorsSection
  cases hfo : firstOcc mainColorsLabel s.data with
  | some i => exact ⟨s.data.take i, take_pref i s.data, rfl⟩
  | none => exact ⟨s.data, List.prefix_rfl, rfl⟩

lemma strip_no_occurs (s : String) :
    ¬ Occurs mainColorsLabel (stripMainColorsSection s).data := by
  unfold stripMainColorsSection
  cases hfo : firstOcc mainColorsLabel s.data with
  | some i =>
    intro hocc
    have h1 : Occurs mainColorsLabel (s.data.take i) :=
      occurs_of_infix (jsTrim_isInfix _) hocc
    exact not_occurs_take hfo (by decide) h1
  | none =>
    intro hocc
    have h1 : Occurs mainColorsLabel s.data :=
      occurs_of_infix (jsTrim_isInfix _) hocc
    obtain ⟨j, hj⟩ := (occurs_iff _ _).mp h1
    exact firstOcc_none hfo j hj

/-- Claim C9: `stripMainColorsSection` returns the trim of a prefix of its
input, the result never contains the substring `Main Colors:`, and the
function is idempotent. -/
theorem stripMainColorsSection_spec (s : String) :
    (∃ p, p <+: s.data ∧ (stripMainColorsSection s).data = jsTrim p) ∧
    ¬ Occurs mainColorsLabel (stripMainColorsSection s).data ∧
    stripMainColorsSection (stripMainColorsSection s) = stripMainColorsSection s := by
  obtain ⟨p, hp, heq⟩ := strip_data s
  refine ⟨⟨p, hp, by rw [heq]⟩, strip_no_occurs s, ?_⟩
  have hnone : firstOcc mainColorsLabel (stripMainColorsSection s).data = none :=
    firstOcc_eq_none_of_not_occurs (strip_no_occurs s)
  conv_lhs => rw [stripMainColorsSection]
  rw [hnone]
  rw [heq]
  simp [jsTrim_idem]


-- ### Lemmas for `getContrastYIQ`

lemma hexDigit_ne_hash {c : Char} (h : isHexDigitChar c = true) :
    (c == '#') = false := by
  cases hb : c == '#'
  · rfl
  · exfalso
    have hc : c = '#' := by simpa using hb
    subst hc
    exact absurd h (by decide)

lemma parseIntHex_pair (x y : Char) (hx : isHexDigitChar x = true)
    (hy : isHexDigitChar y = true) :
    parseIntHex [x, y] = some (hexDigitVal x * 16 + hexDigitVal y) := by
  simp [parseIntHex, List.takeWhile, hx, hy, hexValue, List.foldl]

lemma yiqThreshold_cond (r g b : Nat) :
    yiqThreshold r g b =
      if 128 * 1000 ≤ r * 299 + g * 587 + b * 114 then ("#222") else ("#fff") := by
  unfold yiqThreshold
  by_cases h : 128 * 1000 ≤ r * 299 + g * 587 + b * 114
  · rw [if_pos h, if_pos ((Nat.le_div_iff_mul_le (by omega)).mpr h)]
  · rw [if_neg h, if_neg (fun hc => h ((Nat.le_div_iff_mul_le (by omega)).mp hc))]

lemma getContrastYIQ_mk (l : List Char) :
    getContrastYIQ (String.mk l) =
      match parseIntHex ((expandShort (removeFirstHash l)).take 2),
        parseIntHex (((expandShort (removeFirstHash l)).drop 2).take 2),
        parseIntHex (((expandShort (removeFirstHash l)).drop 4).take 2) with
      | some r, some g, some b =>
        if 128 * 1000 ≤ r * 299 + g * 587 + b * 114 then ("#222") else ("#fff")
      | _, _, _ => ("#fff") := rfl

lemma getContrastYIQ_six (a b c d e f : Char)
    (ha : isHexDigitChar a = true) (hb : isHexDigitChar b = true)
    (hc : isHexDigitChar c = true) (hd : isHexDigitChar d = true)
    (he : isHexDigitChar e = true) (hf : isHexDigitChar f = true) :
    getContrastYIQ (String.mk [a, b, c, d, e, f]) =
      yiqThreshold (hexDigitVal a * 16 + hexDigitVal b)
        (hexDigitVal c * 16 + hexDigitVal d)
        (hexDigitVal e * 16 + hexDigitVal f) := by
  have h0 : removeFirstHash [a, b, c, d, e, f] = [a, b, c, d, e, f] := by
    simp [removeFirstHash, hexDigit_ne_hash ha, hexDigit_ne_hash hb,
      hexDigit_ne_hash hc, hexDigit_ne_hash hd, hexDigit_ne_hash he,
      hexDigit_ne_hash hf]
  rw [getContrastYIQ_mk, h0]
  rw [show expandShort [a, b, c, d, e, f] = [a, b, c, d, e, f] from rfl]
  rw [show ([a, b, c, d, e, f].take 2) = [a, b] from rfl,
    show (([a, b, c, d, e, f].drop 2).take 2) = [c, d] from rfl,
    show (([a, b, c, d, e, f].drop 4).take 2) = [e, f] from rfl]
  rw [parseIntHex_pair a b ha hb, parseIntHex_pair c d hc hd,
    parseIntHex_pair e f he hf]
  exact (yiqThreshold_cond _ _ _).symm

lemma getContrastYIQ_hash (rest : List Char)
    (hfree : removeFirstHash rest = rest) :
    getContrastYIQ (String.mk ('#' :: rest)) = getContrastYIQ (String.mk rest) := by
  rw [getContrastYIQ_mk, getContrastYIQ_mk, hfree,
    show removeFirstHash ('#' :: rest) = rest by simp [removeFirstHash]]

lemma getContrastYIQ_three (a b c : Char)
    (ha : isHexDigitChar a = true) (hb : isHexDigitChar b = true)
    (hc : isHexDigitChar c = true) :
    getContrastYIQ (String.mk [a, b, c]) =
      yiqThreshold (hexDigitVal a * 16 + hexDigitVal a)
        (hexDigitVal b * 16 + hexDigitVal b)
        (hexDigitVal c * 16 + hexDigitVal c) := by
  have h0 : removeFirstHash [a, b, c] = [a, b, c] := by
    simp [removeFirstHash, hexDigit_ne_hash ha, hexDigit_ne_hash hb,
      hexDigit_ne_hash hc]
  rw [getContrastYIQ_mk, h0]
  rw [show expandShort [a, b, c] = [a, a, b, b, c, c] from rfl]
  rw [show ([a, a, b, b, c, c].take 2) = [a, a] from rfl,
    show (([a, a, b, b, c, c].drop 2).take 2) = [b, b] from rfl,
    show (([a, a, b, b, c, c].drop 4).take 2) = [c, c] from rfl]
  rw [parseIntHex_pair a a ha ha, parseIntHex_pair b b hb hb,
    parseIntHex_pair c c hc hc]
  exact (yiqThreshold_cond _ _ _).symm

lemma yiqThreshold_cases (r g b : Nat) :
    yiqThreshold r g b = ("#222") ∨ yiqThreshold r g b = ("#fff") := by
  unfold yiqThreshold
  split <;> simp

lemma removeFirstHash_of_hex {l : List Char}
    (h : ∀ c ∈ l, isHexDigitChar c = true) : removeFirstHash l = l := by
  induction l with
  | nil => rfl
  | cons c t ih =>
    have hc := hexDigit_ne_hash (h c (by simp))
    simp only [removeFirstHash, hc]
    simp only [Bool.false_eq_true, if_false]
    rw [ih (fun x hx => h x (by simp [hx]))]

/-- Claim C10: on a six-hex-digit string (optionally prefixed by `#`) and on a
three-hex-digit string (each digit doubled), `getContrastYIQ` returns `#222`
exactly when `(299*r + 587*g + 114*b) / 1000` is at least `128` for the
decoded byte values, and the result is always one of `#222` and `#fff`. -/
theorem getContrastYIQ_spec (a b c d e f : Char)
    (ha : isHexDigitChar a = true) (hb : isHexDigitChar b = true)
    (hc : isHexDigitChar c = true) (hd : isHexDigitChar d = true)
    (he : isHexDigitChar e = true) (hf : isHexDigitChar f = true) :
    (getContrastYIQ (String.mk [a, b, c, d, e, f]) =
        yiqThreshold (hexDigitVal a * 16 + hexDigitVal b)
          (hexDigitVal c * 16 + hexDigitVal d)
          (hexDigitVal e * 16 + hexDigitVal f) ∧
      getContrastYIQ (String.mk ('#' :: [a, b, c, d, e, f])) =
        getContrastYIQ (String.mk [a, b, c, d, e, f])) ∧
    (getContrastYIQ (String.mk [a, b, c]) =
        yiqThreshold (hexDigitVal a * 16 + hexDigitVal a)
          (hexDigitVal b * 16 + hexDigitVal b)
          (hexDigitVal c * 16 + hexDigitVal c) ∧
      getContrastYIQ (String.mk ('#' :: [a, b, c])) =
        getContrastYIQ (String.mk [a, b, c])) ∧
    (getContrastYIQ (String.mk [a, b, c, d, e, f]) = ("#222") ∨
      getContrastYIQ (String.mk [a, b, c, d, e, f]) = ("#fff")) ∧
    (getContrastYIQ (String.mk [a, b, c]) = ("#222") ∨
      getContrastYIQ (String.mk [a, b, c]) = ("#fff")) := by
  have hall6 : ∀ x ∈ [a, b, c, d, e, f], isHexDigitChar x = true := by
    intro x hx
    simp only [List.mem_cons, List.not_mem_nil, or_false] at hx
    rcases hx with rfl | rfl | rfl | rfl | rfl | rfl <;> assumption
  have hall3 : ∀ x ∈ [a, b, c], isHexDigitChar x = true := by
    intro x hx
    simp only [List.mem_cons, List.not_mem_nil, or_false] at hx
    rcases hx with rfl | rfl | rfl <;> assumption
  refine ⟨⟨getContrastYIQ_six a b c d e f ha hb hc hd he hf,
      getContrastYIQ_hash _ (removeFirstHash_of_hex hall6)⟩,
    ⟨getContrastYIQ_three a b c ha hb hc,
      getContrastYIQ_hash _ (removeFirstHash_of_hex hall3)⟩, ?_, ?_⟩
  · rw [getContrastYIQ_six a b c d e f ha hb hc hd he hf]
    exact yiqThreshold_cases _ _ _
  · rw [getContrastYIQ_three a b c ha hb hc]
    exact yiqThreshold_cases _ _ _

/-- Witness for C10 at the concrete inputs `0000FF` and `#000`. -/
theorem getContrastYIQ_spec_witness :
    getContrastYIQ (String.mk ['0', '0', '0', '0', 'F', 'F']) = ("#fff") ∧
    getContrastYIQ (String.mk ['#', '0', '0', '0']) = ("#fff") := by
  have h := getContrastYIQ_spec '0' '0' '0' '0' 'F' 'F'
    (by decide) (by decide) (by decide) (by decide) (by decide) (by decide)
  constructor
  · rw [h.1.1]
    decide
  · have h2 : getContrastYIQ (String.mk ('#' :: ['0', '0', '0'])) =
        getContrastYIQ (String.mk ['0', '0', '0']) := h.2.1.2
    rw [h2, h.2.1.1]
    decide

-- ### Combinator lemmas for the regex scanner

lemma expectL_append (cs r : List Char) : expectL cs (cs ++ r) = some r := by
  induction cs with
  | nil => rfl
  | cons c t ih => simp [expectL, ih]

lemma expectL_single (c : Char) (r : List Char) :
    expectL [c] (c :: r) = some r := by
  simp [expectL]

lemma takeWhile_dropWhile_append (p : Char → Bool) (xs r : List Char)
    (h1 : ∀ c ∈ xs, p c = true) (h2 : ∀ c, r.head? = some c → p c = false) :
    (xs ++ r).takeWhile p = xs ∧ (xs ++ r).dropWhile p = r := by
  induction xs with
  | nil =>
    cases r with
    | nil => simp
    | cons c t =>
      have hc : p c = false := h2 c rfl
      refine ⟨by simp [List.takeWhile_cons, hc], ?_⟩
      rw [List.nil_append, List.dropWhile_cons_of_neg]
      simp [hc]
  | cons x xs ih =>
    have hx : p x = true := h1 x (by simp)
    have hrec := ih (fun c hc => h1 c (by simp [hc]))
    simp [List.takeWhile_cons, hx, List.dropWhile_cons_of_pos hx, hrec.1, hrec.2]

lemma takeExactly_append (p : Char → Bool) (xs r : List Char)
    (h1 : ∀ c ∈ xs, p c = true) :
    takeExactly xs.length p (xs ++ r) = some (xs, r) := by
  induction xs with
  | nil => rfl
  | cons x t ih =>
    have hx : p x = true := h1 x (by simp)
    have ht := ih (fun c hc => h1 c (by simp [hc]))
    have hstep : takeExactly (x :: t).length p ((x :: t) ++ r)
        = (takeExactly t.length p (t ++ r)).map (fun pr => (x :: pr.1, pr.2)) := by
      simp [takeExactly, hx]
    rw [hstep, ht]
    rfl

lemma jsIsSpace_of_digit {c : Char} (h : Char.isDigit c = true) :
    jsIsSpace c = false := by
  cases hs : jsIsSpace c
  · rfl
  · exfalso
    simp only [Char.isDigit, ge_iff_le, Bool.and_eq_true, decide_eq_true_eq] at h
    simp only [jsIsSpace, Bool.or_eq_true, beq_iff_eq] at hs
    rcases hs with ((((((rfl | rfl) | rfl) | rfl) | rfl) | rfl) | hv) | hv
    · exact absurd h (by decide)
    · exact absurd h (by decide)
    · exact absurd h (by decide)
    · exact absurd h (by decide)
    · exact absurd h (by decide)
    · exact absurd h (by decide)
    · rw [hv] at h
      exact absurd h (by decide)
    · rw [hv] at h
      exact absurd h (by decide)

lemma data_mk (l : List Char) : (String.mk l).data = l := rfl

lemma mk_data (s : String) : String.mk s.data = s := rfl

lemma isEmpty_false_of_ne {l : List Char} (h : l ≠ []) : l.isEmpty = false := by
  cases l
  · exact absurd rfl h
  · rfl

lemma head_nondigit_comma (rest : List Char) :
    ∀ c, ((',' :: rest).head? = some c) → Char.isDigit c = false := by
  intro c hc
  simp only [List.head?_cons, Option.some.injEq] at hc
  subst hc
  decide

lemma head_nondigit_rparen (rest : List Char) :
    ∀ c, ((')' :: rest).head? = some c) → Char.isDigit c = false := by
  intro c hc
  simp only [List.head?_cons, Option.some.injEq] at hc
  subst hc
  decide

lemma head_nondigit_dot (rest : List Char) :
    ∀ c, (('.' :: rest).head? = some c) → Char.isDigit c = false := by
  intro c hc
  simp only [List.head?_cons, Option.some.injEq] at hc
  subst hc
  decide

lemma dropWhile_space_digit_head (y R : List Char) (hy : y ≠ [])
    (hdy : ∀ c ∈ y, Char.isDigit c = true) :
    List.dropWhile jsIsSpace (y ++ R) = y ++ R := by
  cases y with
  | nil => exact absurd rfl hy
  | cons c t =>
    rw [List.cons_append, List.dropWhile_cons_of_neg]
    simp [jsIsSpace_of_digit (hdy c (by simp))]

-- ### Positive computation lemmas: the scanner on rendered input

lemma parseNum_app (ds r : List Char) (h1 : ds ≠ [])
    (h2 : ∀ c ∈ ds, Char.isDigit c = true) :
    parseNum (ds ++ ('.' :: r)) = some r := by
  obtain ⟨ht, hd⟩ := takeWhile_dropWhile_append Char.isDigit ds ('.' :: r) h2
    (head_nondigit_dot r)
  unfold parseNum
  rw [ht, hd]
  simp [isEmpty_false_of_ne h1, expectL_single]

lemma parseName_app (name r : List Char) (hcf : ∀ c ∈ name, c ≠ ',') :
    parseName (' ' :: 'N' :: 'a' :: 'm' :: 'e' :: ':' :: ' ' :: (name ++ (',' :: r)))
      = some (' ' :: name, r) := by
  unfold parseName
  rw [List.dropWhile_cons_of_pos (by decide), List.dropWhile_cons_of_neg (by decide)]
  rw [show ("Name:").data = ['N', 'a', 'm', 'e', ':'] from rfl]
  rw [show expectL ['N', 'a', 'm', 'e', ':']
      ('N' :: 'a' :: 'm' :: 'e' :: ':' :: ' ' :: (name ++ (',' :: r)))
      = some (' ' :: (name ++ (',' :: r))) from by simp [expectL]]
  rw [Option.some_bind]
  rw [show (' ' :: (name ++ (',' :: r))) = ((' ' :: name) ++ (',' :: r)) from by simp]
  obtain ⟨ht, hd⟩ := takeWhile_dropWhile_append (fun c => c != ',') (' ' :: name)
    (',' :: r)
    (by
      intro c hc
      rcases List.mem_cons.mp hc with rfl | hc'
      · decide
      · simpa using hcf c hc')
    (by
      intro c hc
      simp only [List.head?_cons, Option.some.injEq] at hc
      subst hc
      decide)
  rw [ht, hd]
  simp [expectL_single]

lemma parseHexPart_app (h6 r : List Char) (hlen : h6.length = 6)
    (hall : ∀ c ∈ h6, isHexDigitChar c = true) :
    parseHexPart (' ' :: 'H' :: 'e' :: 'x' :: ':' :: ' ' :: '#' :: (h6 ++ (',' :: r)))
      = some (h6, ',' :: r) := by
  unfold parseHexPart
  rw [List.dropWhile_cons_of_pos (by decide), List.dropWhile_cons_of_neg (by decide)]
  rw [show ("Hex:").data = ['H', 'e', 'x', ':'] from rfl]
  rw [show expectL ['H', 'e', 'x', ':']
      ('H' :: 'e' :: 'x' :: ':' :: ' ' :: '#' :: (h6 ++ (',' :: r)))
      = some (' ' :: '#' :: (h6 ++ (',' :: r))) from by simp [expectL]]
  rw [Option.some_bind]
  rw [List.dropWhile_cons_of_pos (by decide), List.dropWhile_cons_of_neg (by decide)]
  rw [expectL_single, Option.some_bind]
  rw [← hlen]
  exact takeExactly_append isHexDigitChar h6 (',' :: r) hall

lemma parseComp_app (x r : List Char) (hx : x ≠ [])
    (hdx : ∀ c ∈ x, Char.isDigit c = true)
    (hr : ∀ c, r.head? = some c → Char.isDigit c = false) :
    parseComp (x ++ r) = some (x, r) := by
  obtain ⟨ht, hd⟩ := takeWhile_dropWhile_append Char.isDigit x r hdx hr
  unfold parseComp
  rw [ht, hd]
  simp [isEmpty_false_of_ne hx]

lemma parseRgbPart_app (x y z r : List Char)
    (hx : x ≠ []) (hy : y ≠ []) (hz : z ≠ [])
    (hdx : ∀ c ∈ x, Char.isDigit c = true) (hdy : ∀ c ∈ y, Char.isDigit c = true)
    (hdz : ∀ c ∈ z, Char.isDigit c = true) :
    parseRgbPart (',' :: ' ' :: 'R' :: 'G' :: 'B' :: ':' :: ' ' :: '(' ::
        (x ++ (',' :: ' ' :: (y ++ (',' :: ' ' :: (z ++ (')' :: r)))))))
      = some ((x, y, z), r) := by
  unfold parseRgbPart
  rw [expectL_single, Option.some_bind]
  rw [List.dropWhile_cons_of_pos (by decide), List.dropWhile_cons_of_neg (by decide)]
  rw [show ("RGB:").data = ['R', 'G', 'B', ':'] from rfl]
  rw [show expectL ['R', 'G', 'B', ':']
      ('R' :: 'G' :: 'B' :: ':' :: ' ' :: '(' ::
        (x ++ (',' :: ' ' :: (y ++ (',' :: ' ' :: (z ++ (')' :: r)))))))
      = some (' ' :: '(' ::
        (x ++ (',' :: ' ' :: (y ++ (',' :: ' ' :: (z ++ (')' :: r)))))))
      from by simp [expectL]]
  rw [Option.some_bind]
  rw [List.dropWhile_cons_of_pos (by decide), List.dropWhile_cons_of_neg (by decide)]
  rw [expectL_single, Option.some_bind]
  rw [parseComp_app x (',' :: ' ' :: (y ++ (',' :: ' ' :: (z ++ (')' :: r)))))
    hx hdx (head_nondigit_comma _), Option.some_bind]
  rw [expectL_single, Option.some_bind]
  rw [List.dropWhile_cons_of_pos (by decide)]
  rw [dropWhile_space_digit_head y (',' :: ' ' :: (z ++ (')' :: r))) hy hdy]
  rw [parseComp_app y (',' :: ' ' :: (z ++ (')' :: r))) hy hdy
    (head_nondigit_comma _), Option.some_bind]
  rw [expectL_single, Option.some_bind]
  rw [List.dropWhile_cons_of_pos (by decide)]
  rw [dropWhile_space_digit_head z (')' :: r) hz hdz]
  rw [parseComp_app z (')' :: r) hz hdz (head_nondigit_rparen _), Option.some_bind]
  rw [expectL_single]
  rfl

-- ### Facts about trim-fixed strings

lemma trimfix_parts {s : String} (h : jsTrimS s = s) :
    List.dropWhile jsIsSpace s.data = s.data ∧
    List.rdropWhile jsIsSpace s.data = s.data := by
  have hd : List.rdropWhile jsIsSpace (List.dropWhile jsIsSpace s.data) = s.data := by
    have := congrArg String.data h
    simpa [jsTrimS, jsTrim] using this
  exact dropWhile_of_trim_fix hd

lemma jsTrim_space_cons {s : String} (h : jsTrimS s = s) :
    jsTrim (' ' :: s.data) = s.data := by
  obtain ⟨h1, h2⟩ := trimfix_parts h
  unfold jsTrim
  rw [List.dropWhile_cons_of_pos (by decide), h1, h2]

-- ### One full match on a rendered line

lemma matchAt_line (c : ColorInfo) (rest : List Char) (hwf : WellFormedColor c)
    (ds : List Char) (hds : ds ≠ [])
    (hdds : ∀ ch ∈ ds, Char.isDigit ch = true) :
    matchAt (ds ++ ('.' :: ' ' :: 'N' :: 'a' :: 'm' :: 'e' :: ':' :: ' ' ::
        (c.name.data ++ (',' :: ' ' :: 'H' :: 'e' :: 'x' :: ':' :: ' ' ::
          (c.hex.data ++ (',' :: ' ' :: 'R' :: 'G' :: 'B' :: ':' :: ' ' ::
            (c.rgb.data ++ rest)))))))
      = some (c, rest) := by
  obtain ⟨⟨hn1, hn2, hn3⟩, ⟨h6, hhex, hlen6, hall6⟩,
    ⟨x, y, z, hx, hy, hz, hdx, hdy, hdz, hrgb⟩⟩ := hwf
  have e4 : parseRgbPart (',' :: ' ' :: 'R' :: 'G' :: 'B' :: ':' :: ' ' ::
      (c.rgb.data ++ rest)) = some ((x, y, z), rest) := by
    rw [hrgb]
    rw [show ('(' :: (x ++ (',' :: ' ' :: (y ++ (',' :: ' ' ::
        (z ++ ([')'])))))) ++ rest)
        = '(' :: (x ++ (',' :: ' ' :: (y ++ (',' :: ' ' :: (z ++ (')' :: rest))))))
      from by simp]
    exact parseRgbPart_app x y z rest hx hy hz hdx hdy hdz
  have e3 : parseHexPart (' ' :: 'H' :: 'e' :: 'x' :: ':' :: ' ' ::
      (c.hex.data ++ (',' :: ' ' :: 'R' :: 'G' :: 'B' :: ':' :: ' ' ::
        (c.rgb.data ++ rest))))
      = some (h6, ',' :: ' ' :: 'R' :: 'G' :: 'B' :: ':' :: ' ' ::
          (c.rgb.data ++ rest)) := by
    rw [hhex, List.cons_append]
    exact parseHexPart_app h6 _ hlen6 hall6
  have e2 : parseName (' ' :: 'N' :: 'a' :: 'm' :: 'e' :: ':' :: ' ' ::
      (c.name.data ++ (',' :: ' ' :: 'H' :: 'e' :: 'x' :: ':' :: ' ' ::
        (c.hex.data ++ (',' :: ' ' :: 'R' :: 'G' :: 'B' :: ':' :: ' ' ::
          (c.rgb.data ++ rest))))))
      = some (' ' :: c.name.data, ' ' :: 'H' :: 'e' :: 'x' :: ':' :: ' ' ::
          (c.hex.data ++ (',' :: ' ' :: 'R' :: 'G' :: 'B' :: ':' :: ' ' ::
            (c.rgb.data ++ rest)))) :=
    parseName_app c.name.data _ hn3
  have e1 := parseNum_app ds
    ('.' :: ' ' :: 'N' :: 'a' :: 'm' :: 'e' :: ':' :: ' ' ::
      (c.name.data ++ (',' :: ' ' :: 'H' :: 'e' :: 'x' :: ':' :: ' ' ::
        (c.hex.data ++ (',' :: ' ' :: 'R' :: 'G' :: 'B' :: ':' :: ' ' ::
          (c.rgb.data ++ rest)))))).tail hds hdds
  unfold matchAt
  rw [show ('.' :: ' ' :: 'N' :: 'a' :: 'm' :: 'e' :: ':' :: ' ' ::
      (c.name.data ++ (',' :: ' ' :: 'H' :: 'e' :: 'x' :: ':' :: ' ' ::
        (c.hex.data ++ (',' :: ' ' :: 'R' :: 'G' :: 'B' :: ':' :: ' ' ::
          (c.rgb.data ++ rest)))))).tail
      = (' ' :: 'N' :: 'a' :: 'm' :: 'e' :: ':' :: ' ' ::
        (c.name.data ++ (',' :: ' ' :: 'H' :: 'e' :: 'x' :: ':' :: ' ' ::
          (c.hex.data ++ (',' :: ' ' :: 'R' :: 'G' :: 'B' :: ':' :: ' ' ::
            (c.rgb.data ++ rest)))))) from rfl] at e1
  rw [e1, Option.some_bind, e2, Option.some_bind, e3, Option.some_bind, e4,
    Option.map_some']
  have hname : String.mk (jsTrim (' ' :: c.name.data)) = c.name := by
    rw [jsTrim_space_cons hn2]
  have hhexeq : String.mk ('#' :: h6) = c.hex := by
    rw [← hhex]
  have hrgbeq : String.mk ('(' :: (x ++ (',' :: ' ' ::
      (y ++ (',' :: ' ' :: (z ++ ([')']))))))) = c.rgb := by
    rw [← hrgb]
  rw [hname, hhexeq, hrgbeq]

-- ### Inversion lemmas: shapes of every produced ColorInfo

lemma takeExactly_some {n : Nat} {p : Char → Bool} {l : List Char}
    {xs r : List Char} (h : takeExactly n p l = some (xs, r)) :
    xs.length = n ∧ ∀ c ∈ xs, p c = true := by
  induction n generalizing l xs r with
  | zero =>
    simp only [takeExactly, Option.some.injEq, Prod.mk.injEq] at h
    obtain ⟨rfl, rfl⟩ := h
    exact ⟨rfl, by simp⟩
  | succ n ih =>
    cases l with
    | nil => simp [takeExactly] at h
    | cons c t =>
      simp only [takeExactly] at h
      split at h
      · rename_i hpc
        simp only [Option.map_eq_some'] at h
        obtain ⟨⟨xs', r'⟩, hx, heq⟩ := h
        simp only [Prod.mk.injEq] at heq
        obtain ⟨rfl, rfl⟩ := heq
        obtain ⟨hlen, hall⟩ := ih hx
        refine ⟨by simp [hlen], ?_⟩
        intro d hd
        rcases List.mem_cons.mp hd with rfl | hd'
        · exact hpc
        · exact hall d hd'
      · simp at h

lemma parseHexPart_some {l : List Char} {h6 r : List Char}
    (h : parseHexPart l = some (h6, r)) :
    h6.length = 6 ∧ ∀ c ∈ h6, isHexDigitChar c = true := by
  unfold parseHexPart at h
  simp only [Option.bind_eq_some] at h
  obtain ⟨r1, -, h⟩ := h
  obtain ⟨r2, -, h⟩ := h
  exact takeExactly_some h

lemma parseComp_some {l : List Char} {ds r : List Char}
    (h : parseComp l = some (ds, r)) :
    ds ≠ [] ∧ ∀ c ∈ ds, Char.isDigit c = true := by
  unfold parseComp at h
  split at h
  · simp at h
  · rename_i hne
    simp only [Option.some.injEq, Prod.mk.injEq] at h
    obtain ⟨rfl, rfl⟩ := h
    refine ⟨?_, fun c hc => List.mem_takeWhile_imp hc⟩
    intro hnil
    exact hne (by simp [hnil])

lemma parseRgbPart_some {l : List Char}
    {xyz : List Char × List Char × List Char} {r : List Char}
    (h : parseRgbPart l = some (xyz, r)) :
    (xyz.1 ≠ [] ∧ ∀ c ∈ xyz.1, Char.isDigit c = true) ∧
    (xyz.2.1 ≠ [] ∧ ∀ c ∈ xyz.2.1, Char.isDigit c = true) ∧
    (xyz.2.2 ≠ [] ∧ ∀ c ∈ xyz.2.2, Char.isDigit c = true) := by
  unfold parseRgbPart at h
  simp only [Option.bind_eq_some, Option.map_eq_some'] at h
  obtain ⟨r0, -, r1, -, r2, -, xp, hx, r3, -, yp, hy, r4, -, zp, hz, r5, -, heq⟩ := h
  have heq1 : (xp.1, yp.1, zp.1) = xyz := congrArg Prod.fst heq
  subst heq1
  exact ⟨parseComp_some hx, parseComp_some hy, parseComp_some hz⟩

lemma validHexB_mk {h6 : List Char} (hlen : h6.length = 6)
    (hall : ∀ c ∈ h6, isHexDigitChar c = true) :
    validHexB (String.mk ('#' :: h6)) = true := by
  unfold validHexB
  rw [data_mk]
  simp only [List.all_eq_true]
  simp [hlen]
  exact hall

lemma validRgbShapeB_mk {x y z : List Char} (hx : x ≠ []) (hy : y ≠ [])
    (hz : z ≠ [])
    (hdx : ∀ c ∈ x, Char.isDigit c = true) (hdy : ∀ c ∈ y, Char.isDigit c = true)
    (hdz : ∀ c ∈ z, Char.isDigit c = true) :
    validRgbShapeB (String.mk ('(' :: (x ++ (',' :: ' ' ::
      (y ++ (',' :: ' ' :: (z ++ ([')'])))))))) = true := by
  unfold validRgbShapeB
  rw [data_mk]
  rw [expectL_single, Option.some_bind]
  rw [parseComp_app x (',' :: ' ' :: (y ++ (',' :: ' ' :: (z ++ ([')'])))))
    hx hdx (head_nondigit_comma _), Option.some_bind]
  rw [show expectL [',', ' '] (',' :: ' ' :: (y ++ (',' :: ' ' :: (z ++ ([')'])))))
      = some (y ++ (',' :: ' ' :: (z ++ ([')'])))) from by simp [expectL],
    Option.some_bind]
  rw [parseComp_app y (',' :: ' ' :: (z ++ ([')']))) hy hdy
    (head_nondigit_comma _), Option.some_bind]
  rw [show expectL [',', ' '] (',' :: ' ' :: (z ++ ([')'])))
      = some (z ++ ([')'])) from by simp [expectL], Option.some_bind]
  rw [parseComp_app z ([')']) hz hdz (head_nondigit_rparen _), Option.some_bind]
  rfl

lemma matchAt_some_shape {l : List Char} {c : ColorInfo} {rem : List Char}
    (h : matchAt l = some (c, rem)) :
    validHexB c.hex = true ∧ validRgbShapeB c.rgb = true := by
  unfold matchAt at h
  simp only [Option.bind_eq_some, Option.map_eq_some'] at h
  obtain ⟨r1, -, up, -, hp, hhex, rp, hrgb, heq⟩ := h
  obtain ⟨hlen6, hall6⟩ := @parseHexPart_some up.2 hp.1 hp.2 hhex
  obtain ⟨⟨hx1, hx2⟩, ⟨hy1, hy2⟩, ⟨hz1, hz2⟩⟩ :=
    @parseRgbPart_some hp.2 rp.1 rp.2 hrgb
  have hc : c = ⟨String.mk (jsTrim up.1), String.mk ('#' :: hp.1),
      String.mk ('(' :: (rp.1.1 ++ (',' :: ' ' ::
        (rp.1.2.1 ++ (',' :: ' ' :: (rp.1.2.2 ++ ([')'])))))))⟩ :=
    (congrArg Prod.fst heq).symm
  subst hc
  exact ⟨validHexB_mk hlen6 hall6, validRgbShapeB_mk hx1 hy1 hz1 hx2 hy2 hz2⟩

lemma scanGo_mem_shape :
    ∀ fuel l c, c ∈ scanGo fuel l →
      validHexB c.hex = true ∧ validRgbShapeB c.rgb = true := by
  intro fuel
  induction fuel with
  | zero =>
    intro l c hc
    simp [scanGo] at hc
  | succ n ih =>
    intro l c hc
    cases hm : matchAt l with
    | some pr =>
      simp only [scanGo, hm] at hc
      rcases List.mem_cons.mp hc with rfl | hc'
      · exact @matchAt_some_shape l pr.1 pr.2 hm
      · exact ih pr.2 c hc'
    | none =>
      cases l with
      | nil => simp [scanGo, hm] at hc
      | cons d t =>
        simp only [scanGo, hm] at hc
        exact ih t c hc

/-- Claim C5: every `ColorInfo` produced by `parseColorInfo` has a hex field
consisting of `#` followed by exactly six hexadecimal digits. -/
theorem parseColorInfo_hex_valid (text : String) :
    ∀ c ∈ parseColorInfo text, validHexB c.hex = true := by
  intro c hc
  exact (scanGo_mem_shape text.data.length text.data c hc).1

/-- Witness for C5: a concrete text whose parse produces a color, whose hex
field satisfies the invariant. -/
theorem parseColorInfo_hex_valid_witness :
    (⟨"Red", "#FF0000", "(255, 0, 0)"⟩ : ColorInfo) ∈
      parseColorInfo ("1. Name: Red, Hex: #FF0000, RGB: (255, 0, 0)") ∧
    validHexB ("#FF0000") = true := by
  refine ⟨by decide, ?_⟩
  exact parseColorInfo_hex_valid ("1. Name: Red, Hex: #FF0000, RGB: (255, 0, 0)")
    (⟨"Red", "#FF0000", "(255, 0, 0)"⟩ : ColorInfo) (by decide)

/-- Counterexample for C6: the regex accepts arbitrarily large decimal
components, so a component of `999` is parsed and kept; the produced rgb
field has a numeric component outside `[0, 255]`. -/
theorem parseColorInfo_rgb_range_cex :
    parseColorInfo ("1. Name: Red, Hex: #FF0000, RGB: (999, 0, 0)")
      = [⟨"Red", "#FF0000", "(999, 0, 0)"⟩] ∧
    rgbComponents ("(999, 0, 0)") = [999, 0, 0] ∧
    ¬ (∀ n ∈ rgbComponents ("(999, 0, 0)"), n ≤ 255) := by
  decide

/-- Claim C6 (amended): every `ColorInfo` produced by `parseColorInfo` has an
rgb field of the shape `(a, b, c)` with `a`, `b`, `c` nonempty digit runs –
nonnegative integers with no enforced upper bound. -/
theorem parseColorInfo_rgb_shape (text : String) :
    ∀ c ∈ parseColorInfo text, validRgbShapeB c.rgb = true := by
  intro c hc
  exact (scanGo_mem_shape text.data.length text.data c hc).2

/-- Witness for the amended C6 at a concrete parsed text. -/
theorem parseColorInfo_rgb_shape_witness :
    (⟨"Sky", "#87CEEB", "(12, 34, 56)"⟩ : ColorInfo) ∈
      parseColorInfo ("2. Name: Sky, Hex: #87CEEB, RGB: (12, 34, 56)") ∧
    validRgbShapeB ("(12, 34, 56)") = true := by
  refine ⟨by decide, ?_⟩
  exact parseColorInfo_rgb_shape ("2. Name: Sky, Hex: #87CEEB, RGB: (12, 34, 56)")
    (⟨"Sky", "#87CEEB", "(12, 34, 56)"⟩ : ColorInfo) (by decide)

-- ### Decimal rendering facts

lemma digitChar_isDigit {n : Nat} (h : n < 10) :
    Char.isDigit (Nat.digitChar n) = true := by
  interval_cases n <;> decide

lemma natToCharsAux_ne {fuel n : Nat} {acc : List Char}
    (h : natToCharsAux fuel n acc = []) : fuel = 0 ∧ acc = [] := by
  induction fuel generalizing n acc with
  | zero =>
    refine ⟨rfl, ?_⟩
    simpa [natToCharsAux] using h
  | succ f ih =>
    simp only [natToCharsAux] at h
    split at h
    · simp at h
    · obtain ⟨-, h2⟩ := ih h
      simp at h2

lemma natToChars_ne (n : Nat) : natToChars n ≠ [] := by
  intro h
  obtain ⟨h1, -⟩ := natToCharsAux_ne h
  omega

lemma natToCharsAux_digits (fuel : Nat) : ∀ (n : Nat) (acc : List Char),
    (∀ c ∈ acc, Char.isDigit c = true) →
    ∀ c ∈ natToCharsAux fuel n acc, Char.isDigit c = true := by
  induction fuel with
  | zero =>
    intro n acc hacc c hc
    exact hacc c (by simpa [natToCharsAux] using hc)
  | succ f ih =>
    intro n acc hacc c hc
    simp only [natToCharsAux] at hc
    split at hc
    · rename_i hn
      rcases List.mem_cons.mp hc with rfl | hc'
      · exact digitChar_isDigit (by omega)
      · exact hacc c hc'
    · exact ih (n / 10) _ (by
        intro d hd
        rcases List.mem_cons.mp hd with rfl | hd'
        · exact digitChar_isDigit (Nat.mod_lt _ (by omega))
        · exact hacc d hd') c hc

lemma natToChars_digits (n : Nat) : ∀ c ∈ natToChars n, Char.isDigit c = true :=
  natToCharsAux_digits (n + 1) n [] (by simp)

-- ### The scanner on the rendered palette

lemma lineChars_append (k : Nat) (c : ColorInfo) (rest : List Char) :
    lineChars k c ++ rest
      = natToChars k ++ ('.' :: ' ' :: 'N' :: 'a' :: 'm' :: 'e' :: ':' :: ' ' ::
          (c.name.data ++ (',' :: ' ' :: 'H' :: 'e' :: 'x' :: ':' :: ' ' ::
            (c.hex.data ++ (',' :: ' ' :: 'R' :: 'G' :: 'B' :: ':' :: ' ' ::
              (c.rgb.data ++ rest)))))) := by
  unfold lineChars
  rw [show ((". Name: ").data) = ['.', ' ', 'N', 'a', 'm', 'e', ':', ' '] from rfl,
    show ((", Hex: ").data) = [',', ' ', 'H', 'e', 'x', ':', ' '] from rfl,
    show ((", RGB: ").data) = [',', ' ', 'R', 'G', 'B', ':', ' '] from rfl]
  simp

lemma lineChars_ne (k : Nat) (c : ColorInfo) : lineChars k c ≠ [] := by
  unfold lineChars
  intro h
  exact natToChars_ne k (List.append_eq_nil.mp h).1

lemma matchAt_nil : matchAt [] = none := rfl

lemma matchAt_head_nondigit {c0 : Char} {t : List Char}
    (h : Char.isDigit c0 = false) : matchAt (c0 :: t) = none := by
  unfold matchAt parseNum
  simp [List.takeWhile_cons, h]

lemma scanGo_nil (fuel : Nat) : scanGo fuel [] = [] := by
  cases fuel
  · rfl
  · simp [scanGo, matchAt_nil]

lemma matchAt_lineChars (k : Nat) (c : ColorInfo) (rest : List Char)
    (hwf : WellFormedColor c) :
    matchAt (lineChars k c ++ rest) = some (c, rest) := by
  rw [lineChars_append]
  exact matchAt_line c rest hwf (natToChars k) (natToChars_ne k)
    (natToChars_digits k)

lemma scanGo_render : ∀ (colors : List ColorInfo) (k fuel : Nat),
    (∀ c ∈ colors, WellFormedColor c) →
    (renderFrom k colors).length ≤ fuel →
    scanGo fuel (renderFrom k colors) = colors := by
  intro colors
  induction colors with
  | nil =>
    intro k fuel h hlen
    simp [renderFrom, scanGo_nil]
  | cons c rest ih =>
    intro k fuel hwf hlen
    cases rest with
    | nil =>
      simp only [renderFrom] at hlen ⊢
      have hm : matchAt (lineChars k c) = some (c, []) := by
        have hsh := matchAt_lineChars k c [] (hwf c (by simp))
        rwa [List.append_nil] at hsh
      cases fuel with
      | zero =>
        exfalso
        have := List.length_pos.mpr (lineChars_ne k c)
        omega
      | succ f =>
        simp [scanGo, hm, scanGo_nil]
    | cons c2 rest2 =>
      simp only [renderFrom] at hlen ⊢
      have hm : matchAt (lineChars k c ++ ('\n' :: renderFrom (k + 1) (c2 :: rest2)))
          = some (c, '\n' :: renderFrom (k + 1) (c2 :: rest2)) :=
        matchAt_lineChars k c _ (hwf c (by simp))
      have hL : 0 < (lineChars k c).length := List.length_pos.mpr (lineChars_ne k c)
      rw [List.length_append, List.length_cons] at hlen
      cases fuel with
      | zero => omega
      | succ f =>
        simp only [scanGo, hm]
        cases f with
        | zero => omega
        | succ f2 =>
          simp only [scanGo,
            matchAt_head_nondigit (show Char.isDigit '\n' = false by decide)]
          rw [ih (k + 1) f2 (fun d hd => hwf d (by simp [hd])) (by omega)]

-- ### String append helpers

lemma empty_sappend (s : String) : ("") ++ s = s := by
  cases s with
  | mk l => rfl

lemma sappend_empty (s : String) : s ++ ("") = s := by
  cases s with
  | mk l =>
    show String.mk (l ++ []) = String.mk l
    rw [List.append_nil]

lemma sappend_assoc (a b c : String) : (a ++ b) ++ c = a ++ (b ++ c) := by
  cases a with
  | mk x =>
    cases b with
    | mk y =>
      cases c with
      | mk z =>
        show String.mk ((x ++ y) ++ z) = String.mk (x ++ (y ++ z))
        rw [List.append_assoc]

-- ### Round trip of the fixed color format

lemma parseColorInfo_render {colors : List ColorInfo}
    (h : ∀ c ∈ colors, WellFormedColor c) :
    parseColorInfo (renderPaletteLines colors) = colors := by
  unfold parseColorInfo renderPaletteLines
  rw [data_mk]
  exact scanGo_render colors 1 _ h (le_refl _)

lemma wfRed : WellFormedColor (⟨"Red", "#FF0000", "(255, 0, 0)"⟩ : ColorInfo) := by
  refine ⟨⟨by decide, by decide, by decide⟩,
    ⟨['F', 'F', '0', '0', '0', '0'], rfl, rfl, by decide⟩,
    ⟨['2', '5', '5'], ['0'], ['0'], by decide, by decide, by decide,
      by decide, by decide, by decide, rfl⟩⟩

lemma wfDeepBlue :
    WellFormedColor (⟨"Deep Blue", "#0000FF", "(0, 0, 255)"⟩ : ColorInfo) := by
  refine ⟨⟨by decide, by decide, by decide⟩,
    ⟨['0', '0', '0', '0', 'F', 'F'], rfl, rfl, by decide⟩,
    ⟨['0'], ['0'], ['2', '5', '5'], by decide, by decide, by decide,
      by decide, by decide, by decide, rfl⟩⟩

lemma wfGreen :
    WellFormedColor (⟨"Green", "#00FF00", "(0, 255, 0)"⟩ : ColorInfo) := by
  refine ⟨⟨by decide, by decide, by decide⟩,
    ⟨['0', '0', 'F', 'F', '0', '0'], rfl, rfl, by decide⟩,
    ⟨['0'], ['2', '5', '5'], ['0'], by decide, by decide, by decide,
      by decide, by decide, by decide, rfl⟩⟩

/-- Counterexample for C4 as stated: the name `"Red "` contains no comma and
is nonempty after trimming, yet the round trip returns the trimmed name
`"Red"`, not `"Red "`. -/
theorem renderPalette_roundTrip_cex :
    (∀ ch ∈ ("Red ").data, ch ≠ ',') ∧
    jsTrimS ("Red ") ≠ ("") ∧
    parseColorInfo (renderPaletteLines
        [(⟨"Red ", "#FF0000", "(1, 2, 3)"⟩ : ColorInfo)])
      = [(⟨"Red", "#FF0000", "(1, 2, 3)"⟩ : ColorInfo)] ∧
    parseColorInfo (renderPaletteLines
        [(⟨"Red ", "#FF0000", "(1, 2, 3)"⟩ : ColorInfo)])
      ≠ [(⟨"Red ", "#FF0000", "(1, 2, 3)"⟩ : ColorInfo)] := by
  decide

/-- Claim C4 (amended): for colors whose names are comma-free, nonempty and
equal to their own trim, and whose hex and rgb fields have the prescribed
shapes, rendering as `N. Name: ..., Hex: ..., RGB: ...` lines and parsing
recovers exactly the list. -/
theorem renderPalette_roundTrip (colors : List ColorInfo)
    (h : ∀ c ∈ colors, WellFormedColor c) :
    parseColorInfo (renderPaletteLines colors) = colors :=
  parseColorInfo_render h

/-- Witness for the amended C4 on a concrete two-color palette. -/
theorem renderPalette_roundTrip_witness :
    parseColorInfo (renderPaletteLines
        [⟨"Red", "#FF0000", "(255, 0, 0)"⟩, ⟨"Deep Blue", "#0000FF", "(0, 0, 255)"⟩])
      = [⟨"Red", "#FF0000", "(255, 0, 0)"⟩,
          ⟨"Deep Blue", "#0000FF", "(0, 0, 255)"⟩] := by
  exact renderPalette_roundTrip _ (by
    intro c hc
    rcases List.mem_cons.mp hc with rfl | hc2
    · exact wfRed
    · rcases List.mem_cons.mp hc2 with rfl | hc3
      · exact wfDeepBlue
      · simp at hc3)

-- ### The streamed palette (C1)

lemma renderPaletteLines_ne_empty (c1 : ColorInfo) (rest : List ColorInfo) :
    renderPaletteLines (c1 :: rest) ≠ ("") := by
  intro h
  have hd := congrArg String.data h
  rw [data_mk] at hd
  cases rest with
  | nil => exact lineChars_ne 1 c1 hd
  | cons c2 rest2 =>
    exact lineChars_ne 1 c1 (List.append_eq_nil.mp hd).1

/-- Counterexample for C1 as stated: a streamed response whose accumulated
text contains a single color line leaves the palette with one entry, not
three; nothing in the code forces the count to 3. -/
theorem paletteThree_cex :
    (clientRun [some ("1. Name: Red, Hex: #FF0000, RGB: (9, 9, 9)")]).palette.length
      = 1 ∧
    (clientRun [some ("1. Name: Red, Hex: #FF0000, RGB: (9, 9, 9)")]).palette.length
      ≠ 3 := by
  decide

/-- Claim C1 (amended): the palette equals `parseColorInfo` of the
accumulated text whenever that parse is nonempty; when the streamed
response consists of three lines in the prescribed format, the palette has
exactly 3 entries. -/
theorem paletteThree_amended (c1 c2 c3 : ColorInfo)
    (h1 : WellFormedColor c1) (h2 : WellFormedColor c2)
    (h3 : WellFormedColor c3) :
    (clientRun [some (renderPaletteLines [c1, c2, c3])]).palette = [c1, c2, c3] ∧
    (clientRun [some (renderPaletteLines [c1, c2, c3])]).palette.length = 3 := by
  have hwf : ∀ c ∈ [c1, c2, c3], WellFormedColor c := by
    intro c hc
    rcases List.mem_cons.mp hc with rfl | hc2
    · exact h1
    · rcases List.mem_cons.mp hc2 with rfl | hc3
      · exact h2
      · rcases List.mem_cons.mp hc3 with rfl | hc4
        · exact h3
        · simp at hc4
  have hparse : parseColorInfo (renderPaletteLines [c1, c2, c3]) = [c1, c2, c3] :=
    parseColorInfo_render hwf
  have hne : ¬ renderPaletteLines [c1, c2, c3] = ("") :=
    renderPaletteLines_ne_empty c1 [c2, c3]
  have hstep : clientRun [some (renderPaletteLines [c1, c2, c3])]
      = ⟨("") ++ renderPaletteLines [c1, c2, c3],
          (if 0 < (parseColorInfo (("") ++ renderPaletteLines [c1, c2, c3])).length
            then parseColorInfo (("") ++ renderPaletteLines [c1, c2, c3])
            else []),
          some (stripMainColorsSection
            (("") ++ renderPaletteLines [c1, c2, c3]))⟩ := by
    unfold clientRun clientInit
    simp only [List.foldl_cons, List.foldl_nil, clientStep]
    rw [if_neg hne]
  rw [hstep]
  rw [empty_sappend, hparse]
  simp

/-- Witness for the amended C1 on a concrete three-color response. -/
theorem paletteThree_amended_witness :
    (clientRun [some (renderPaletteLines
      [⟨"Red", "#FF0000", "(255, 0, 0)"⟩, ⟨"Deep Blue", "#0000FF", "(0, 0, 255)"⟩,
        ⟨"Green", "#00FF00", "(0, 255, 0)"⟩])]).palette.length = 3 :=
  (paletteThree_amended _ _ _ wfRed wfDeepBlue wfGreen).2

-- ### Client accumulation invariant (C3)

lemma clientRun_invariant : ∀ (items : List (Option String)) (st : ClientState),
    (st.analysisMsg = none ∨
      st.analysisMsg = some (stripMainColorsSection st.acc)) →
    (List.foldl clientStep st items).acc = st.acc ++ concatTexts items ∧
    ((List.foldl clientStep st items).analysisMsg = none ∨
      (List.foldl clientStep st items).analysisMsg =
        some (stripMainColorsSection (List.foldl clientStep st items).acc)) := by
  intro items
  induction items with
  | nil =>
    intro st h
    refine ⟨?_, h⟩
    simp [concatTexts, sappend_empty]
  | cons item rest ih =>
    intro st h
    cases item with
    | none =>
      simp only [List.foldl_cons, clientStep, concatTexts]
      exact ih st h
    | some t =>
      by_cases ht : t = ""
      · subst ht
        simp only [List.foldl_cons, clientStep, if_pos rfl, concatTexts]
        rw [empty_sappend]
        exact ih st h
      · simp only [List.foldl_cons, clientStep, if_neg ht, concatTexts]
        have hst' : (⟨st.acc ++ t,
            (if 0 < (parseColorInfo (st.acc ++ t)).length then
              parseColorInfo (st.acc ++ t) else st.palette),
            some (stripMainColorsSection (st.acc ++ t))⟩ : ClientState).analysisMsg
              = none ∨
            (⟨st.acc ++ t,
              (if 0 < (parseColorInfo (st.acc ++ t)).length then
                parseColorInfo (st.acc ++ t) else st.palette),
              some (stripMainColorsSection (st.acc ++ t))⟩ :
                ClientState).analysisMsg
              = some (stripMainColorsSection (⟨st.acc ++ t,
                (if 0 < (parseColorInfo (st.acc ++ t)).length then
                  parseColorInfo (st.acc ++ t) else st.palette),
                some (stripMainColorsSection (st.acc ++ t))⟩ :
                  ClientState).acc) := Or.inr rfl
        obtain ⟨ha, hm⟩ := ih _ hst'
        refine ⟨?_, hm⟩
        rw [ha]
        exact sappend_assoc st.acc t (concatTexts rest)

/-- Claim C3: after any sequence of parsed `data: ` lines, the accumulated
text is the concatenation, in arrival order, of the text fields, and the
rendered analysis message (when present) is exactly
`stripMainColorsSection` of the accumulated text. -/
theorem clientStream_accumulation (items : List (Option String)) :
    (clientRun items).acc = concatTexts items ∧
    ((clientRun items).analysisMsg = none ∨
      (clientRun items).analysisMsg =
        some (stripMainColorsSection (clientRun items).acc)) := by
  obtain ⟨ha, hm⟩ := clientRun_invariant items clientInit (Or.inl rfl)
  unfold clientRun
  refine ⟨?_, hm⟩
  rw [ha]
  exact empty_sappend _

-- ### The server-sent-event emission loop (C2)

lemma serverEvents_map (chunks : List String) :
    serverEvents chunks =
      (chunks.map (fun t => StreamEvent.dataEvent
        (("data: ") ++ jsonTextObj t ++ ("\n\n")))) ++ [StreamEvent.closeEvent] := by
  induction chunks with
  | nil => rfl
  | cons t rest ih => simp [serverEvents, sseLine, ih]

lemma serverEvents_idx : ∀ (chunks : List String) (i : Nat) (h : i < chunks.length),
    (serverEvents chunks)[i]? =
      some (StreamEvent.dataEvent
        (("data: ") ++ jsonTextObj (chunks.get ⟨i, h⟩) ++ ("\n\n"))) := by
  intro chunks
  induction chunks with
  | nil =>
    intro i h
    simp at h
  | cons t rest ih =>
    intro i h
    cases i with
    | zero => simp [serverEvents, sseLine]
    | succ j =>
      simp only [serverEvents, List.getElem?_cons_succ]
      exact ih j (by simpa using h)

/-- Claim C2: the endpoint emits exactly one SSE line per model chunk, of
the form `data: ` + `JSON.stringify({text: chunk})` + two newlines, in the
order the chunks were received, and closes the stream when the model stream
ends. -/
theorem sseEmission_spec (chunks : List String) :
    serverEvents chunks =
      (chunks.map (fun t => StreamEvent.dataEvent
        (("data: ") ++ jsonTextObj t ++ ("\n\n")))) ++ [StreamEvent.closeEvent] ∧
    (serverEvents chunks).length = chunks.length + 1 ∧
    (∀ i (h : i < chunks.length), (serverEvents chunks)[i]? =
      some (StreamEvent.dataEvent
        (("data: ") ++ jsonTextObj (chunks.get ⟨i, h⟩) ++ ("\n\n")))) ∧
    (serverEvents chunks).getLast? = some StreamEvent.closeEvent := by
  refine ⟨serverEvents_map chunks, ?_, serverEvents_idx chunks, ?_⟩
  · rw [serverEvents_map chunks]
    simp
  · rw [serverEvents_map chunks]
    simp

/-- Witness for C2 at the single chunk `"hi"`, with the emitted JSON made
explicit. -/
theorem sseEmission_spec_witness :
    (serverEvents [("hi")])[0]? =
      some (StreamEvent.dataEvent
        (("data: ") ++ jsonTextObj ("hi") ++ ("\n\n"))) ∧
    jsonTextObj ("hi") = ("\x7b\"text\":\"hi\"\x7d") := by
  refine ⟨(sseEmission_spec [("hi")]).2.2.1 0 (by decide), by decide⟩

-- ### Follow-up submissions (C7)

/-- Counterexample for C7 as stated: a submission with empty input, no newly
selected image and a previously uploaded image on record sends nothing – the
early `return` of chatbot.tsx line 114 fires before any request is built. -/
theorem followupRequest_cex :
    buildRequest ("") none (some (⟨"cat.png"⟩ : FileRef)) [] = none := by
  decide

/-- Claim C7 (amended): for every submission with no newly selected image, a
previously uploaded image on record, and input non-empty after trimming, the
client sends the last uploaded image with mode `followup`, includes the
trimmed question, and includes the current palette as JSON exactly when it
is non-empty. -/
theorem followupRequest_spec (input : String) (img : FileRef)
    (palette : List ColorInfo) (hin : jsTrimS input ≠ ("")) :
    buildRequest input none (some img) palette =
      some (ChatRequestBody.formDataReq img ("followup") (some (jsTrimS input))
        (if 0 < palette.length then some (paletteJSON palette) else none)) := by
  unfold buildRequest
  rw [if_neg (by simp [hin])]
  simp [Option.orElse, hin]

/-- Witness for the amended C7 at a concrete follow-up question. -/
theorem followupRequest_spec_witness :
    buildRequest ("  what about the hue?  ") none (some (⟨"cat.png"⟩ : FileRef))
        [] =
      some (ChatRequestBody.formDataReq (⟨"cat.png"⟩ : FileRef) ("followup")
        (some ("what about the hue?")) none) := by
  have h := followupRequest_spec ("  what about the hue?  ")
    (⟨"cat.png"⟩ : FileRef) [] (by decide)
  rw [h]
  decide

-- ### Early error responses of the route (C8)

/-- Claim C8: the endpoint answers with a JSON error before contacting the
model – status 500 with the configuration message when the API key is
falsy, status 400 with `No image file provided` when no image was extracted
and the mode is not `text-only`; in both cases no stream is started. -/
theorem postGuards_spec (env : ServerEnv) (req : IncomingRequest) :
    (keyMissing env = true →
      POSTdecision env req = RouteOutcome.errorResponse 500
        ("Server configuration error: GOOGLE_API_KEY is not configured")) ∧
    (keyMissing env = false → (extractFields req).1 = none →
      (extractFields req).2.1 ≠ some ("text-only") →
      POSTdecision env req =
        RouteOutcome.errorResponse 400 ("No image file provided")) ∧
    ((keyMissing env = true ∨ ((extractFields req).1 = none ∧
        (extractFields req).2.1 ≠ some ("text-only"))) →
      ∀ m hi, POSTdecision env req ≠ RouteOutcome.streamResponse m hi) := by
  unfold POSTdecision
  refine ⟨?_, ?_, ?_⟩
  · intro hk
    rw [if_pos hk]
  · intro hk h1 h2
    rw [if_neg (by simp [hk]), if_pos ⟨h1, h2⟩]
  · intro hc m hi
    rcases hc with hk | ⟨h1, h2⟩
    · rw [if_pos hk]
      intro hcon
      exact RouteOutcome.noConfusion hcon
    · by_cases hk : keyMissing env = true
      · rw [if_pos hk]
        intro hcon
        exact RouteOutcome.noConfusion hcon
      · rw [if_neg hk, if_pos ⟨h1, h2⟩]
        intro hcon
        exact RouteOutcome.noConfusion hcon

/-- Witness for C8: a missing key gives the 500 response; with a key but a
multipart request carrying no image, the 400 response. -/
theorem postGuards_spec_witness :
    POSTdecision (⟨none⟩ : ServerEnv)
        (⟨some ("multipart/form-data"), none, some ("full"), none, none,
          none, none⟩ : IncomingRequest) =
      RouteOutcome.errorResponse 500
        ("Server configuration error: GOOGLE_API_KEY is not configured") ∧
    POSTdecision (⟨some ("secret-key")⟩ : ServerEnv)
        (⟨some ("multipart/form-data"), none, some ("full"), none, none,
          none, none⟩ : IncomingRequest) =
      RouteOutcome.errorResponse 400 ("No image file provided") := by
  constructor
  · exact (postGuards_spec (⟨none⟩ : ServerEnv) _).1 (by decide)
  · exact (postGuards_spec (⟨some ("secret-key")⟩ : ServerEnv) _).2.1
      (by decide) (by decide) (by decide)

-- ### Fuel adequacy: the scanner consumes at least one character per step,
-- so any fuel of at least the input length gives the same result as the
-- unbounded JS loop.

lemma expectL_some_len {cs l r : List Char} (h : expectL cs l = some r) :
    r.length ≤ l.length := by
  induction cs generalizing l r with
  | nil =>
    simp only [expectL, Option.some.injEq] at h
    rw [h]
  | cons c cs ih =>
    cases l with
    | nil => simp [expectL] at h
    | cons d ds =>
      simp only [expectL] at h
      split at h
      · have := ih h
        simp only [List.length_cons]
        omega
      · simp at h

lemma takeExactly_some_len {n : Nat} {p : Char → Bool} {l : List Char}
    {pr : List Char × List Char} (h : takeExactly n p l = some pr) :
    pr.2.length ≤ l.length := by
  induction n generalizing l pr with
  | zero =>
    simp only [takeExactly, Option.some.injEq] at h
    rw [← h]
  | succ n ih =>
    cases l with
    | nil => simp [takeExactly] at h
    | cons c t =>
      simp only [takeExactly] at h
      split at h
      · simp only [Option.map_eq_some'] at h
        obtain ⟨pr', hpr', rfl⟩ := h
        have := ih hpr'
        simp only [List.length_cons]
        omega
      · simp at h

lemma dropWhile_len (p : Char → Bool) (l : List Char) :
    (List.dropWhile p l).length ≤ l.length :=
  (List.dropWhile_suffix p).length_le

lemma takeWhile_len_pos {p : Char → Bool} {l : List Char}
    (h : (l.takeWhile p).isEmpty = false) :
    0 < (l.takeWhile p).length ∧
      (l.takeWhile p).length + (l.dropWhile p).length = l.length := by
  constructor
  · cases hc : l.takeWhile p with
    | nil => rw [hc] at h; simp at h
    | cons a t => simp [hc]
  · have h2 := congrArg List.length (List.takeWhile_append_dropWhile p l)
    rw [List.length_append] at h2
    exact h2

lemma parseNum_some_len {l r : List Char} (h : parseNum l = some r) :
    r.length < l.length := by
  unfold parseNum at h
  split at h
  · simp at h
  · rename_i hne
    have he := expectL_some_len h
    have hw := takeWhile_len_pos (by
      cases hc : (l.takeWhile Char.isDigit).isEmpty
      · rfl
      · exact absurd hc hne)
    simp only [List.length_cons] at he
    omega

lemma parseName_some_len {l : List Char} {pr : List Char × List Char}
    (h : parseName l = some pr) : pr.2.length ≤ l.length := by
  unfold parseName at h
  simp only [Option.bind_eq_some] at h
  obtain ⟨r, hr, h⟩ := h
  split at h
  · simp at h
  · simp only [Option.map_eq_some'] at h
    obtain ⟨r2, hr2, rfl⟩ := h
    have h1 := expectL_some_len hr
    have h2 := dropWhile_len jsIsSpace l
    have h3 := expectL_some_len hr2
    have h4 := dropWhile_len (fun c => c != ',') r
    simp only [List.length_cons] at h3
    show r2.length ≤ l.length
    omega

lemma parseHexPart_some_len {l : List Char} {pr : List Char × List Char}
    (h : parseHexPart l = some pr) : pr.2.length ≤ l.length := by
  unfold parseHexPart at h
  simp only [Option.bind_eq_some] at h
  obtain ⟨r, hr, h⟩ := h
  obtain ⟨r2, hr2, h⟩ := h
  have h1 := expectL_some_len hr
  have h2 := dropWhile_len jsIsSpace l
  have h3 := expectL_some_len hr2
  have h4 := dropWhile_len jsIsSpace r
  have h5 := takeExactly_some_len h
  simp only [List.length_cons] at h3
  omega

lemma parseComp_some_len {l : List Char} {pr : List Char × List Char}
    (h : parseComp l = some pr) : pr.2.length ≤ l.length := by
  unfold parseComp at h
  split at h
  · simp at h
  · simp only [Option.some.injEq] at h
    rw [← h]
    exact dropWhile_len Char.isDigit l

lemma parseRgbPart_some_len {l : List Char}
    {pr : (List Char × List Char × List Char) × List Char}
    (h : parseRgbPart l = some pr) : pr.2.length ≤ l.length := by
  unfold parseRgbPart at h
  simp only [Option.bind_eq_some, Option.map_eq_some'] at h
  obtain ⟨r0, h0, r1, h1, r2, h2, xp, hx, r3, h3, yp, hy, r4, h4, zp, hz,
    r5, h5, heq⟩ := h
  have e0 := expectL_some_len h0
  have d1 := dropWhile_len jsIsSpace r0
  have e1 := expectL_some_len h1
  have d2 := dropWhile_len jsIsSpace r1
  have e2 := expectL_some_len h2
  have cx := parseComp_some_len hx
  have e3 := expectL_some_len h3
  have d3 := dropWhile_len jsIsSpace r3
  have cy := parseComp_some_len hy
  have e4 := expectL_some_len h4
  have d4 := dropWhile_len jsIsSpace r4
  have cz := parseComp_some_len hz
  have e5 := expectL_some_len h5
  have hpr2 : pr.2 = r5 := by rw [← heq]
  simp only [List.length_cons] at e0 e2 e3 e4 e5
  rw [hpr2]
  omega

lemma matchAt_some_len {l : List Char} {pr : ColorInfo × List Char}
    (h : matchAt l = some pr) : pr.2.length < l.length := by
  unfold matchAt at h
  simp only [Option.bind_eq_some, Option.map_eq_some'] at h
  obtain ⟨r1, h1, up, h2, hp, h3, rp, h4, heq⟩ := h
  have n1 := parseNum_some_len h1
  have n2 := parseName_some_len h2
  have n3 := parseHexPart_some_len h3
  have n4 := parseRgbPart_some_len h4
  have hpr2 : pr.2 = rp.2 := by rw [← heq]
  rw [hpr2]
  omega

lemma scanGo_fuel_irrelevant : ∀ (f1 f2 : Nat) (l : List Char),
    l.length ≤ f1 → l.length ≤ f2 → scanGo f1 l = scanGo f2 l := by
  intro f1
  induction f1 with
  | zero =>
    intro f2 l h1 h2
    have : l = [] := by
      cases l
      · rfl
      · simp at h1
    rw [this, scanGo_nil, scanGo_nil]
  | succ f ih =>
    intro f2 l h1 h2
    cases l with
    | nil => rw [scanGo_nil, scanGo_nil]
    | cons c t =>
      cases f2 with
      | zero => simp at h2
      | succ f2' =>
        cases hm : matchAt (c :: t) with
        | some pr =>
          have hlt : pr.2.length < t.length + 1 := by
            simpa using matchAt_some_len hm
          have hl1 : t.length + 1 ≤ f + 1 := by simpa using h1
          have hl2 : t.length + 1 ≤ f2' + 1 := by simpa using h2
          simp only [scanGo, hm]
          rw [ih f2' pr.2 (by omega) (by omega)]
        | none =>
          have hl1 : t.length + 1 ≤ f + 1 := by simpa using h1
          have hl2 : t.length + 1 ≤ f2' + 1 := by simpa using h2
          simp only [scanGo, hm]
          exact ih f2' t (by omega) (by omega)

/-- With fuel at least the input length – in particular the fuel
`text.length` used by `parseColorInfo` – the fuelled scanner computes the
fixpoint of the unbounded `exec` loop. -/
lemma parseColorInfo_fuel (text : String) (fuel : Nat)
    (h : text.data.length ≤ fuel) :
    parseColorInfo text = scanGo fuel text.data := by
  unfold parseColorInfo
  exact scanGo_fuel_irrelevant text.data.length fuel text.data (le_refl _) h
